import Mathlib

/-!
Shallow embedding of the data model and command handlers of an in-memory
key/value server (string / list / set values) written in Rust, together with
proofs about the embedded definitions.

Sources embedded (paths relative to the repository root):
* `src/commands/lists/mod.rs` — `fill_list_from_top`, `fill_list_from_bottom`,
  `push_at`, `pushx_at`, `pop_at`, `parse_count`, `remove_values_from_top`,
  `remove_values_from_bottom`.
* `src/commands/lists/lrange.rs` — `Lrange::run`, `find_elements_in_range`,
  `get_list_elements_in_range`.
* `src/commands/lpop.rs` — the legacy `LPop::run`, `parse_count`, `fill_list`.
* `src/commands/sets/sadd.rs`, `srem.rs`, `sismember.rs`.
* `src/commands/append.rs` — `Append::run`.
* `src/commands/strings/getdel.rs` — `Getdel::run`.
* `src/commands/keys/clean.rs` — `Clean::run`, `touch_n_random_keys`;
  `src/commands/keys/mod.rs` — `parse_integer`.
* `src/tcp_protocol/client_atributes/client_fields.rs` and `status.rs`.

Rust partiality is made explicit: a handler that can `panic!` (or hit an
`unwrap` on `None`) is embedded as an `Option`-valued function where `none`
marks the panic; fallible handlers return `Except ErrorStruct`.  Mutation of
the shared store is embedded as explicit state passing: a mutating handler
returns the reply together with the new store.
-/

/-- An error reply as built by `ErrorStruct::new(prefix, message)`
(`src/native_types/error.rs`, reachable only through its uses in `src/`):
a prefix token such as `ERR` or `WRONGTYPE` plus a human-readable message. -/
structure ErrorStruct where
  prefix_ : String
  message : String
deriving DecidableEq, Repr

/-- Modelled from the spec: the simple-string reply encoder
`RSimpleString::encode` of `src/native_types/simple_string.rs` (the file is
not under `src/`); spec §4.1: `+<text>\r\n`.  The shape is pinned by the
in-repo test expectation `"+(empty list or set)\r\n"`
(`src/commands/lists/lrange.rs`, `test_04`). -/
def RSimpleString.encode (s : String) : String :=
  "+" ++ s ++ "\r\n"

/-- Modelled from the spec: the integer reply encoder `RInteger::encode` of
`src/native_types/integer.rs` (the file is not under `src/`); spec §4.1:
`:<signed decimal>\r\n`.  Pinned by in-repo test expectations such as
`":13\r\n"` (`src/commands/append.rs`, `test01`). -/
def RInteger.encode (n : Int) : String :=
  ":" ++ toString n ++ "\r\n"

/-- Modelled from the spec: the bulk-string reply encoder
`RBulkString::encode` of `src/native_types/bulk_string.rs` (the file is not
under `src/`); spec §4.1: `$<len>\r\n<bytes>\r\n`, with length −1 encoding
the null bulk.  The encoder maps the literal text `"(nil)"` to the null bulk
`$-1\r\n`: this is pinned by the in-repo tests
`src/commands/lpop.rs::test03_lpop_value_from_a_non_existing_list`
(`LPop` returns `RBulkString::encode("(nil)".to_string())` for an absent key
and the test expects exactly `"$-1\r\n"`) and
`src/commands/strings/getdel.rs::test_02_getdel_of_a_non_existing_key`. -/
def RBulkString.encode (s : String) : String :=
  if s = "(nil)" then "$-1\r\n"
  else "$" ++ toString s.length ++ "\r\n" ++ s ++ "\r\n"

/-- Modelled from the spec: the array reply encoder `RArray::encode` of
`src/native_types/array.rs` (the file is not under `src/`); spec §4.1:
`*<count>\r\n` then the elements encoded (as bulk strings) in order.  Pinned
by in-repo test expectations such as
`"*3\r\n$4\r\nthis\r\n$2\r\nis\r\n$1\r\na\r\n"`
(`src/commands/lpop.rs`, `test02`). -/
def RArray.encode (xs : List String) : String :=
  "*" ++ toString xs.length ++ "\r\n" ++ String.join (xs.map RBulkString.encode)

/-- The tagged union of stored values (`TypeSaved` in `src/database.rs`, also
mirrored by `src/commands/database_mock.rs`): a string, an ordered list of
strings, or a set of unique strings.  The Rust `VecDeque<String>` /
`Vec<String>` / `LinkedList<String>` list carriers are all embedded as
`List String`; the `HashSet<String>` is embedded as `Finset String`. -/
inductive TypeSaved where
  | Str (s : String)
  | List (l : List String)
  | Set (s : Finset String)
deriving DecidableEq

/-- Modelled from the spec: the keyed map of the value store
(`src/database.rs`, not under `src/`; `src/commands/database_mock.rs` gives
the TTL-free core).  Embedded as an association list with unique keys kept in
insertion order; only the operations the embedded handlers use (`get`,
`insert`, `remove`) are provided, and the TTL index is omitted because every
claim below quantifies over live (non-expired) entries only. -/
abbrev Database := List (String × TypeSaved)

/-- `Database::get` / `get_mut` (lookup without mutation; lazy expiration is
out of scope here, see `Database`). -/
def Database.get (db : Database) (k : String) : Option TypeSaved :=
  match db with
  | [] => none
  | (k', v) :: rest => if k' = k then some v else Database.get rest k

/-- `Database::insert`: replaces the value of an existing entry in place,
otherwise appends a fresh entry.  In-place mutation of a value obtained via
`get_mut` is embedded as `insert` of the mutated value. -/
def Database.insert (db : Database) (k : String) (v : TypeSaved) : Database :=
  match db with
  | [] => [(k, v)]
  | (k', v') :: rest =>
    if k' = k then (k, v) :: rest else (k', v') :: Database.insert rest k v

/-- `Database::remove`: drops the entry of `k` if present. -/
def Database.remove (db : Database) (k : String) : Database :=
  match db with
  | [] => []
  | (k', v') :: rest =>
    if k' = k then rest else (k', v') :: Database.remove rest k

instance {ε α : Type} [DecidableEq ε] [DecidableEq α] :
    DecidableEq (Except ε α) := fun x y =>
  match x, y with
  | .ok a, .ok b =>
    if h : a = b then .isTrue (h ▸ rfl)
    else .isFalse (fun heq => h (Except.ok.inj heq))
  | .error a, .error b =>
    if h : a = b then .isTrue (h ▸ rfl)
    else .isFalse (fun heq => h (Except.error.inj heq))
  | .ok _, .error _ => .isFalse Except.noConfusion
  | .error _, .ok _ => .isFalse Except.noConfusion

/-! ## Shared error constants

The `redis_messages` module (`src/messages/mod.rs`) is not under `src/`, but
the error texts below appear verbatim in the handlers that are. -/

/-- `WRONGTYPE Operation against a key holding the wrong kind of value`,
spelled out at `src/commands/lists/lrange.rs:54-55` and produced by the
`err_wrongtype!` macro in the set commands. -/
def wrongtype : ErrorStruct :=
  ⟨"WRONGTYPE", "Operation against a key holding the wrong kind of value"⟩

/-- `ERR key provided is not from strings`, the wrong-variant error of the
list push/pop helpers (`src/commands/lists/mod.rs:48-51`, `78-81`,
`112-115`). -/
def notFromStrings : ErrorStruct :=
  ⟨"ERR", "key provided is not from strings"⟩

/-- `ERRUSIZE provided counter is not a natural number`
(`src/commands/lists/mod.rs:148-158`). -/
def errUsize : ErrorStruct :=
  ⟨"ERRUSIZE", "provided counter is not a natural number"⟩

/-- `ERR argument is not a number or out of index`
(`src/commands/lists/mod.rs:106-109`). -/
def outOfIndex : ErrorStruct :=
  ⟨"ERR", "argument is not a number or out of index"⟩

/-- `ERR wrong number of arguments for command`
(`src/commands/lists/mod.rs:122-142`). -/
def wrongNumberOfArguments : ErrorStruct :=
  ⟨"ERR", "wrong number of arguments for command"⟩

/-- Modelled from the spec: `redis_messages::arguments_invalid_to(name)`
(`src/messages/mod.rs`, not under `src/`), the arity error of the set
commands; the exact text is immaterial to the claims below. -/
def argumentsInvalidTo (name : String) : ErrorStruct :=
  ⟨"ERR", "arguments invalid to " ++ name⟩

/-! ## Numeric argument parsing

Embeddings of Rust's `str::parse::<usize>` / `parse::<isize>` as used by the
handlers (decimal digits, optional leading sign for the signed form). -/

def digitVal (c : Char) : Option Nat :=
  if '0' ≤ c ∧ c ≤ '9' then some (c.toNat - '0'.toNat) else none

def parseNatChars : List Char → Nat → Option Nat
  | [], acc => some acc
  | c :: rest, acc =>
    match digitVal c with
    | some d => parseNatChars rest (acc * 10 + d)
    | none => none

/-- `value.parse::<usize>()`: all-digit decimal text (machine-width overflow
is immaterial to the claims and left unbounded). -/
def parseUsize (s : String) : Option Nat :=
  match s.data with
  | [] => none
  | l => parseNatChars l 0

/-- `value.parse::<isize>()`: optional `-`/`+` sign then digits. -/
def parseIsize (s : String) : Option Int :=
  match s.data with
  | '-' :: rest =>
    match rest with
    | [] => none
    | l => (parseNatChars l 0).map fun n => -(n : Int)
  | '+' :: rest =>
    match rest with
    | [] => none
    | l => (parseNatChars l 0).map fun n => (n : Int)
  | [] => none
  | l => (parseNatChars l 0).map fun n => (n : Int)

/-! ## List commands (`src/commands/lists/mod.rs`) -/

/-- `fill_list_from_top`: drains the buffer front to back, pushing each
element at the front of the list, so the buffer ends up reversed before the
old contents. -/
def fill_list_from_top (buffer : List String) (list : List String) :
    List String :=
  match buffer with
  | [] => list
  | x :: rest => fill_list_from_top rest (x :: list)

/-- `fill_list_from_bottom`: drains the buffer front to back, pushing each
element at the back of the list. -/
def fill_list_from_bottom (buffer : List String) (list : List String) :
    List String :=
  match buffer with
  | [] => list
  | x :: rest => fill_list_from_bottom rest (list ++ [x])

/-- `push_at` (LPUSH / RPUSH core): on an existing list, fills it and replies
with the new length; on another variant, fails with `notFromStrings`; on an
absent key, creates the list.  The buffer is `key :: values`; `fill_list` is
the push-direction parameter exactly as in the source. -/
def push_at (buffer : List String) (db : Database)
    (fill_list : List String → List String → List String) :
    Except ErrorStruct (String × Database) :=
  match buffer with
  | [] => .ok ("", db)    -- unreachable: callers pass `key :: values`
  | key :: values =>
    match db.get key with
    | some (TypeSaved.List l) =>
      let l' := fill_list values l
      .ok (RInteger.encode l'.length, db.insert key (TypeSaved.List l'))
    | some _ => .error notFromStrings
    | none =>
      let l' := fill_list values []
      .ok (RInteger.encode l'.length, db.insert key (TypeSaved.List l'))

/-- `pushx_at` (LPUSHX / RPUSHX core): like `push_at` but fails with
`ERR no list found with entered key` when the key is absent. -/
def pushx_at (buffer : List String) (db : Database)
    (fill_list : List String → List String → List String) :
    Except ErrorStruct (String × Database) :=
  match buffer with
  | [] => .ok ("", db)    -- unreachable: callers pass `key :: values`
  | key :: values =>
    match db.get key with
    | some (TypeSaved.List l) =>
      let l' := fill_list values l
      .ok (RInteger.encode l'.length, db.insert key (TypeSaved.List l'))
    | some _ => .error notFromStrings
    | none => .error ⟨"ERR", "no list found with entered key"⟩

/-- `parse_count` of `src/commands/lists/mod.rs:143-163`: pops the count from
the END of the buffer; a missing count defaults to 1; a non-numeric or zero
count is `ERRUSIZE`.  Returns the count and the remaining buffer. -/
def parse_count (buffer : List String) :
    Except ErrorStruct (Nat × List String) :=
  match buffer.getLast? with
  | none => .ok (1, buffer)
  | some v =>
    match parseUsize v with
    | some c => if c > 0 then .ok (c, buffer.dropLast) else .error errUsize
    | none => .error errUsize

/-- Takes the first `n` elements off the front of the list; `none` when the
list runs out, marking the `pop_front().unwrap()` / `remove(0)` panic. -/
def popN (l : List String) (n : Nat) : Option (List String × List String) :=
  match n, l with
  | 0, l => some ([], l)
  | _ + 1, [] => none
  | n + 1, x :: xs => (popN xs n).map fun p => (x :: p.1, p.2)

/-- `remove_values_from_top` (LPOP direction): for a count above 1 the popped
elements are an array reply, a count of 1 gives a bulk-string reply.  `none`
marks the panic of an unguarded pop on an exhausted list. -/
def remove_values_from_top (list : List String) (counter : Nat) :
    Option (String × List String) :=
  if counter > 1 then
    (popN list counter).map fun p => (RArray.encode p.1, p.2)
  else
    match list with
    | [] => none
    | x :: rest => some (RBulkString.encode x, rest)

/-- `remove_values_from_bottom` (RPOP direction): symmetric to
`remove_values_from_top`, popping at the back. -/
def remove_values_from_bottom (list : List String) (counter : Nat) :
    Option (String × List String) :=
  if counter > 1 then
    (popN list.reverse counter).map fun p => (RArray.encode p.1, p.2.reverse)
  else
    match list.reverse with
    | [] => none
    | x :: rest => some (RBulkString.encode x, rest.reverse)

/-- `pop_at` (LPOP / RPOP core, `src/commands/lists/mod.rs:91-120`): checks
arity, parses the optional count, and pops when `count <= len`, failing with
`outOfIndex` otherwise; an absent key replies with the null bulk (via the
`"(nil)"` bulk encoding).  The outer `Option` marks a potential panic inside
the `fill_list` parameter (`none` never occurs; see `pop_at_total`). -/
def pop_at (buffer : List String) (db : Database)
    (fill_list : List String → Nat → Option (String × List String)) :
    Option (Except ErrorStruct (String × Database)) :=
  match buffer with
  | [] => some (.error wrongNumberOfArguments)   -- `are_there_more_values`
  | key :: rest =>
    match parse_count rest with
    | .error e => some (.error e)
    | .ok (count, rest') =>
      if rest'.isEmpty then                       -- `no_more_values`
        match db.get key with
        | some (TypeSaved.List l) =>
          if count ≤ l.length then
            (fill_list l count).map fun p =>
              .ok (p.1, db.insert key (TypeSaved.List p.2))
          else some (.error outOfIndex)
        | some _ => some (.error notFromStrings)
        | none => some (.ok (RBulkString.encode "(nil)", db))
      else some (.error wrongNumberOfArguments)

/-! ## The legacy LPOP (`src/commands/lpop.rs`)

An older variant of LPOP kept in the repository alongside the
`src/commands/lists/` one.  It performs no `count <= len` guard before
popping, so `fill_list` can panic via `Vec::remove(0)` on an exhausted
list. -/

namespace LPop

/-- `fill_list` of `src/commands/lpop.rs:52-61`: pops `counter` elements from
the front with `list.remove(0)`, which panics (`none`) when the list runs
out; a count of 1 produces a bulk-string reply, larger counts an array. -/
def fill_list (list : List String) (counter : Nat) :
    Option (String × List String) :=
  if counter > 1 then
    (popN list counter).map fun p => (RArray.encode p.1, p.2)
  else
    match list with
    | [] => none
    | x :: rest => some (RBulkString.encode x, rest)

/-- The legacy `LPop::run` (`src/commands/lpop.rs:10-27`): removes the key
from the buffer (panicking on an empty buffer), parses the optional count,
and pops without any bound check; an absent key replies with the null bulk.
`none` marks a panic. -/
def run (buffer : List String) (db : Database) :
    Option (Except ErrorStruct (String × Database)) :=
  match buffer with
  | [] => none                     -- `buffer.remove(0)` on an empty vector
  | key :: rest =>
    match parse_count rest with    -- same `parse_count` as the lists module
    | .error e => some (.error e)
    | .ok (count, _) =>
      match db.get key with
      | some (TypeSaved.List l) =>
        (fill_list l count).map fun p =>
          .ok (p.1, db.insert key (TypeSaved.List p.2))
      | some _ => some (.error notFromStrings)
      | none => some (.ok (RBulkString.encode "(nil)", db))

end LPop

/-! ## LRANGE (`src/commands/lists/lrange.rs`) -/

/-- `get_list_elements_in_range` (`src/commands/lists/lrange.rs:99-124`):
walks the list from index `start` while the index stays below `stop + 1` and
elements remain, pushing each element DECORATED as `j) "element"` with a
1-based running counter `j`, and encodes the result as an array reply.
Callers guarantee `0 ≤ start ≤ stop`. -/
def get_list_elements_in_range (start stop : Int) (values_list : List String) :
    String :=
  let range_elems :=
    ((values_list.drop start.toNat).take (stop + 1 - start).toNat).enum.map
      fun p => toString (p.1 + 1) ++ ") \"" ++ p.2 ++ "\""
  RArray.encode range_elems

/-- `find_elements_in_range` (`src/commands/lists/lrange.rs:68-95`): resolves
negative indices against the length, replies with the free-text simple
string `+(empty list or set)\r\n` when
`start ≥ len ∨ start > stop ∨ stop < -len`, otherwise clamps `start` to 0
and `stop` to `len − 1` and delegates to `get_list_elements_in_range`.  The
start/stop arguments stand for the two buffer entries after
`get_as_integer(...)` (the buffer-arity bookkeeping around them is faithful
to the source and cannot fail for a two-element buffer). -/
def find_elements_in_range (values_list : List String) (start₀ stop₀ : Int) :
    Except ErrorStruct String :=
  let len : Int := values_list.length
  let start₁ := if start₀ < 0 then start₀ + len else start₀
  let stop₁ := if stop₀ < 0 then stop₀ + len else stop₀
  if start₁ ≥ len ∨ start₁ > stop₁ ∨ stop₁ < -len then
    .ok (RSimpleString.encode "(empty list or set)")
  else
    let start₂ := if start₁ < 0 then 0 else start₁
    let stop₂ := if stop₁ ≥ len then len - 1 else stop₁
    .ok (get_list_elements_in_range start₂ stop₂ values_list)

/-- `Lrange::run` (`src/commands/lists/lrange.rs:37-63`): wrong-variant keys
fail with the `WRONGTYPE` error; an absent key replies with the free-text
simple string. -/
def Lrange.run (key : String) (start stop : Int) (db : Database) :
    Except ErrorStruct String :=
  match db.get key with
  | some (TypeSaved.List values_list) =>
    find_elements_in_range values_list start stop
  | some _ => .error wrongtype
  | none => .ok (RSimpleString.encode "(empty list or set)")

/-! ## Set commands (`src/commands/sets/`) -/

/-- `insert_in_set` (`src/commands/sets/sadd.rs:43-50`): folds the members
(the buffer minus its leading key) into the set, counting only the
insertions that were truly new.  Returns the count and the final set. -/
def insert_in_set (members : List String) (item : Finset String) :
    Nat × Finset String :=
  match members with
  | [] => (0, item)
  | m :: rest =>
    if m ∈ item then insert_in_set rest item
    else
      let p := insert_in_set rest (insert m item)
      (p.1 + 1, p.2)

/-- `Sadd::run` (`src/commands/sets/sadd.rs:12-39`): arity-checked; on a set
key inserts the members and replies with the count of new ones; on another
variant fails with `WRONGTYPE`; on an absent key creates the set. -/
def Sadd.run (buffer : List String) (db : Database) :
    Except ErrorStruct (String × Database) :=
  match buffer with
  | [] => .error (argumentsInvalidTo "sadd")          -- `check_empty`
  | [_] => .error (argumentsInvalidTo "sadd")         -- fewer than 2 args
  | key :: members =>
    match db.get key with
    | some (TypeSaved.Set item) =>
      let p := insert_in_set members item
      .ok (RInteger.encode p.1, db.insert key (TypeSaved.Set p.2))
    | some _ => .error wrongtype
    | none =>
      let p := insert_in_set members ∅
      .ok (RInteger.encode p.1, db.insert key (TypeSaved.Set p.2))

/-- The member-removal fold of `Srem::run` (`src/commands/sets/srem.rs:20-25`):
removes each listed member, counting only removals that found the member. -/
def remove_from_set (members : List String) (item : Finset String) :
    Nat × Finset String :=
  match members with
  | [] => (0, item)
  | m :: rest =>
    if m ∈ item then
      let p := remove_from_set rest (item.erase m)
      (p.1 + 1, p.2)
    else remove_from_set rest item

/-- `Srem::run` (`src/commands/sets/srem.rs:12-35`): arity-checked; on a set
key removes the members and replies with the count actually removed; on
another variant fails with `WRONGTYPE`; an absent key replies `:0\r\n`. -/
def Srem.run (buffer : List String) (db : Database) :
    Except ErrorStruct (String × Database) :=
  match buffer with
  | [] => .error (argumentsInvalidTo "srem")
  | [_] => .error (argumentsInvalidTo "srem")
  | key :: members =>
    match db.get key with
    | some (TypeSaved.Set item) =>
      let p := remove_from_set members item
      .ok (RInteger.encode p.1, db.insert key (TypeSaved.Set p.2))
    | some _ => .error wrongtype
    | none => .ok (RInteger.encode 0, db)

/-- `Sismember::run` (`src/commands/sets/sismember.rs:14-35`): the buffer is
`[command-name, key, member]` (this vintage keeps the command name at index
0) and must have exactly three entries; replies `:1\r\n` when the member is
in the set, `:0\r\n` otherwise and for an absent key; `WRONGTYPE` on another
variant. -/
def Sismember.run (buffer : List String) (db : Database) :
    Except ErrorStruct String :=
  match buffer with
  | [_, key, member] =>
    match db.get key with
    | some (TypeSaved.Set item) =>
      .ok (RInteger.encode (if member ∈ item then 1 else 0))
    | some _ => .error wrongtype
    | none => .ok (RInteger.encode 0)
  | _ => .error (argumentsInvalidTo "sismember")

/-! ## APPEND (`src/commands/append.rs`) -/

/-- `Append::run` (`src/commands/append.rs:10-62`): the two popped buffer
entries are the parameters `key` and `new_value`.  Appends to an existing
string (replying with the new length), fails on another variant, and creates
the string on an absent key (replying with its length). -/
def Append.run (key new_value : String) (db : Database) :
    Except ErrorStruct (String × Database) :=
  match db.get key with
  | some (TypeSaved.Str old_value) =>
    let appended := old_value ++ new_value
    .ok (RInteger.encode appended.length,
         db.insert key (TypeSaved.Str appended))
  | some _ => .error notFromStrings
  | none =>
    .ok (RInteger.encode new_value.length,
         db.insert key (TypeSaved.Str new_value))

/-- Sequential execution of `Append::run` on one key: the replies of
`APPEND k v1, ..., APPEND k vn` in order, together with the final store. -/
def Append.runSeq (k : String) (db : Database) :
    List String → Except ErrorStruct (List String × Database)
  | [] => .ok ([], db)
  | v :: vs =>
    match Append.run k v db with
    | .error e => .error e
    | .ok (r, db') =>
      match Append.runSeq k db' vs with
      | .error e => .error e
      | .ok (rs, db'') => .ok (r :: rs, db'')

/-- Spec-side definition (spec §8): the concatenation `v1v2...vn`. -/
def joinAll : List String → String
  | [] => ""
  | v :: vs => v ++ joinAll vs

/-- Spec-side definition (spec §8): the expected integer replies of a chain
of APPENDs on a string that currently holds `acc` — each reply carries the
cumulative length. -/
def appendReplies (acc : String) : List String → List String
  | [] => []
  | v :: vs =>
    RInteger.encode ((acc ++ v).length : Int) :: appendReplies (acc ++ v) vs

/-! ## GETDEL (`src/commands/strings/getdel.rs`) -/

/-- `Getdel::run` (`src/commands/strings/getdel.rs:26-65`): the popped buffer
entry is the parameter `key`.  A string key is removed and its value replied
as a bulk string; another variant fails with
`ERR key provided is not from string`; an absent key replies with
`RBulkString::encode("(nil)")`, the null bulk. -/
def Getdel.run (key : String) (db : Database) :
    Except ErrorStruct (String × Database) :=
  match db.get key with
  | some (TypeSaved.Str _) =>
    match db.get key with        -- the second lookup is `database.remove`
    | some (TypeSaved.Str value) =>
      .ok (RBulkString.encode value, db.remove key)
    | some _ => .error ⟨"ERR", "key provided is not from string"⟩
    | none => .ok (RBulkString.encode "(nil)", db)
  | some _ => .error ⟨"ERR", "key provided is not from string"⟩
  | none => .ok (RBulkString.encode "(nil)", db)

/-! ## CLEAN (`src/commands/keys/clean.rs`, `src/commands/keys/mod.rs`)

The store behind CLEAN needs the TTL side of `src/database.rs`, which is not
under `src/`.  Modelled from the spec (§4.2): the live entries are a list of
`(key, expired?)` pairs; `touch` resolves lazy expiration (removing an
expired entry and reporting that it did); `random_key` is a uniform sample
over the entries, embedded through an `oracle : Nat → Nat` supplying the
random choices, consumed one per sampling step. -/

/-- Modelled from the spec: `Database::touch(key)` — removes the entry when
it is expired and returns whether an expired entry was observed. -/
def touchKey (st : List (String × Bool)) (k : String) :
    Bool × List (String × Bool) :=
  match st with
  | [] => (false, [])
  | (k', ex) :: rest =>
    if k' = k then
      if ex then (true, rest) else (false, (k', ex) :: rest)
    else
      let p := touchKey rest k
      (p.1, (k', ex) :: p.2)

/-- The loop body of `touch_n_random_keys`
(`src/commands/keys/clean.rs:59-69`): `m` remaining iterations (the Rust
`for _ in 0..*n` runs `max n 0` times), `t` the oracle cursor.  Each step
samples `random_key()` (none on an empty store, in which case nothing is
touched) and touches it, counting the touches that expired an entry. -/
def touchN (m : Nat) (t : Nat) (oracle : Nat → Nat)
    (st : List (String × Bool)) : Int × Nat × List (String × Bool) :=
  match m with
  | 0 => (0, t, st)
  | m + 1 =>
    let step :=
      match st.get? (oracle t % st.length) with
      | some (k, _) =>
        let p := touchKey st k
        ((if p.1 then (1 : Int) else 0), p.2)
      | none => (0, st)
    let rest := touchN m (t + 1) oracle step.2
    (step.1 + rest.1, rest.2.1, rest.2.2)

/-- `touch_n_random_keys` (`src/commands/keys/clean.rs:59-69`): touches
`max n 0` randomly sampled keys and counts the expirations. -/
def touch_n_random_keys (n : Int) (t : Nat) (oracle : Nat → Nat)
    (st : List (String × Bool)) : Int × Nat × List (String × Bool) :=
  touchN n.toNat t oracle st

/-- The `while continue_cleaning` loop of `Clean::run`
(`src/commands/keys/clean.rs:42-56`), indexed by fuel: each pass touches `n`
random keys, adds the pass's expirations to the running total, and stops
exactly when the pass's expirations are at most `iterations / 4` (signed
truncating division, as in Rust).  `none` means the fuel ran out before the
loop stopped — the loop, not the embedding, fails to terminate. -/
def cleanLoop (fuel : Nat) (iterations : Int) (t : Nat) (oracle : Nat → Nat)
    (st : List (String × Bool)) (total : Int) :
    Option (Int × List (String × Bool)) :=
  match fuel with
  | 0 => none
  | fuel + 1 =>
    let p := touch_n_random_keys iterations t oracle st
    if p.1 ≤ iterations.tdiv 4 then some (total + p.1, p.2.2)
    else cleanLoop fuel iterations p.2.1 oracle p.2.2 (total + p.1)

/-- `parse_integer` (`src/commands/keys/mod.rs:32-41`): parses a signed
machine integer, failing with `ERR value is not an integer or out of range`
otherwise (overflow is immaterial to the claims). -/
def parse_integer (value : String) : Except ErrorStruct Int :=
  match parseIsize value with
  | some n => .ok n
  | none => .error ⟨"ERR", "value is not an integer or out of range"⟩

/-- `Clean::run` (`src/commands/keys/clean.rs:26-56`): pops the single
argument (the arity messages of `pop_value` / `no_more_values` wrap the
command name in ASCII-39 quotes, elided here), parses it as a signed
integer, and runs the cleaning loop.  `none` means the loop exhausted any
amount of fuel. -/
def Clean.run (fuel : Nat) (buffer : List String) (oracle : Nat → Nat)
    (st : List (String × Bool)) :
    Option (Except ErrorStruct (String × List (String × Bool))) :=
  match buffer.getLast? with
  | none => some (.error ⟨"ERR", "wrong number of arguments for clean command"⟩)
  | some argument =>
    if buffer.dropLast.isEmpty then
      match parse_integer argument with
      | .error e => some (.error e)
      | .ok iterations =>
        (cleanLoop fuel iterations 0 oracle st 0).map fun p =>
          .ok (RInteger.encode p.1, p.2)
    else some (.error ⟨"ERR", "wrong number of arguments for clean command"⟩)

/-! ## Client state machine (`src/tcp_protocol/client_atributes/`) -/

/-- `Status` (`src/tcp_protocol/client_atributes/status.rs:8-14`). -/
inductive Status where
  | Executor
  | Subscriber
  | Monitor
  | Dead
deriving DecidableEq

/-- Modelled from the spec: `RunnablesMap`
(`src/tcp_protocol/runnables_map.rs`, not under `src/`) — the allowed-handler
view installed for a client status.  Only the identity of the view matters to
the claims, so views are embedded as tags; `contains_key` / `get` follow the
spec §4.5 table for the Subscriber view (`SUBSCRIBE`, `UNSUBSCRIBE`, `PING`,
`QUIT`, `PUBSUB`) and spec §6 for the Executor view. -/
inductive RunnablesMap where
  | executor
  | subscriber
deriving DecidableEq

/-- Modelled from the spec: the command names registered in the Executor
view (spec §6, command surface). -/
def executorViewCommands : List String :=
  ["append", "get", "set", "getset", "getdel", "incrby", "decrby", "mset",
   "mget", "strlen", "del", "exists", "expire", "persist", "ttl", "type",
   "rename", "copy", "keys", "touch", "clean", "lpush", "rpush", "lpushx",
   "rpushx", "lpop", "rpop", "llen", "lrange", "lset", "lrem", "lindex",
   "sort", "sadd", "srem", "smembers", "scard", "sismember", "config",
   "shutdown", "monitor", "info", "ping", "subscribe", "unsubscribe",
   "publish", "pubsub", "quit"]

/-- Modelled from the spec: the command names registered in the Subscriber
view (spec §4.5). -/
def subscriberViewCommands : List String :=
  ["subscribe", "unsubscribe", "ping", "quit", "pubsub"]

/-- `RunnablesMap::contains_key` on the modelled views. -/
def RunnablesMap.contains_key (m : RunnablesMap) (command : String) : Bool :=
  match m with
  | .executor => executorViewCommands.contains command
  | .subscriber => subscriberViewCommands.contains command

/-- `RunnablesMap::get`: the looked-up handler is opaque to the claims, so a
hit is embedded as `some ()`. -/
def RunnablesMap.get (m : RunnablesMap) (command : String) : Option Unit :=
  if m.contains_key command then some () else none

/-- `Status::update_map`
(`src/tcp_protocol/client_atributes/status.rs:32-38`): the handler-map view
selected by a status — Executor and Subscriber views, nothing for Monitor
and Dead. -/
def Status.update_map : Status → Option RunnablesMap
  | .Executor => some .executor
  | .Subscriber => some .subscriber
  | _ => none

/-- `ClientFields` (`src/tcp_protocol/client_atributes/client_fields.rs:20-25`);
the remote address is kept as plain text. -/
structure ClientFields where
  map : Option RunnablesMap
  status : Status
  subscriptions : Finset String
  address : String
deriving DecidableEq

/-- `ClientFields::new` (`client_fields.rs:33-40`): Executor status with the
Executor view installed and no subscriptions. -/
def ClientFields.new (address : String) : ClientFields :=
  ⟨some .executor, Status.Executor, ∅, address⟩

/-- `ClientFields::replace_status` (`client_fields.rs:56-60`): swaps in the
new status and recomputes the handler-map view from it. -/
def ClientFields.replace_status (f : ClientFields) (new_status : Status) :
    ClientFields :=
  { f with status := new_status, map := new_status.update_map }

/-- `add_channels` (`client_fields.rs:233-238`): inserts every listed channel
into the subscription set. -/
def ClientFields.add_channels (f : ClientFields) (new_channels : List String) :
    ClientFields :=
  { f with
    subscriptions :=
      new_channels.foldl (fun s c => insert c s) f.subscriptions }

/-- `remove_channels` (`client_fields.rs:240-245`). -/
def ClientFields.remove_channels (f : ClientFields)
    (channels : List String) : ClientFields :=
  { f with
    subscriptions := channels.foldl (fun s c => s.erase c) f.subscriptions }

/-- `as_case_executor` (`client_fields.rs:184-188`): adds the channels, then
transitions to Subscriber through `replace_status` (which refreshes the
view). -/
def ClientFields.as_case_executor (f : ClientFields)
    (channels : List String) : Int × ClientFields :=
  let f₁ := f.add_channels channels
  (f₁.subscriptions.card, f₁.replace_status Status.Subscriber)

/-- `rs_case_subscriber` (`client_fields.rs:220-231`): with no channels
listed, the status is swapped to Executor DIRECTLY on the `Status` (without
`replace_status`, hence without refreshing the handler-map view) and the
subscription set is cleared; with channels listed, they are removed and an
emptied subscription set triggers `replace_status(Executor)`.  Replies with
the number of remaining subscriptions. -/
def ClientFields.rs_case_subscriber (f : ClientFields)
    (channels : List String) : Int × ClientFields :=
  if channels.isEmpty then
    (0, { f with status := Status.Executor, subscriptions := ∅ })
  else
    let f₁ := f.remove_channels channels
    let f₂ :=
      if f₁.subscriptions = ∅ then f₁.replace_status Status.Executor else f₁
    (f₁.subscriptions.card, f₂)

/-- `ClientFields::add_subscriptions` (`client_fields.rs:174-182`). -/
def ClientFields.add_subscriptions (f : ClientFields)
    (channels : List String) : Except ErrorStruct (Int × ClientFields) :=
  match f.status with
  | .Executor => .ok (f.as_case_executor channels)
  | .Subscriber =>
    let f₁ := f.add_channels channels
    .ok (f₁.subscriptions.card, f₁)
  | _ =>
    .error ⟨"ERR",
      "unexpected behaviour of Dead client (or monitor) executing command"⟩

/-- `ClientFields::remove_subscriptions` (`client_fields.rs:203-218`):
Executors reply 0 untouched; Subscribers go through `rs_case_subscriber`;
Monitor and Dead clients fail. -/
def ClientFields.remove_subscriptions (f : ClientFields)
    (channels : List String) : Except ErrorStruct (Int × ClientFields) :=
  match f.status with
  | .Executor => .ok (0, f)
  | .Subscriber => .ok (f.rs_case_subscriber channels)
  | _ =>
    .error ⟨"ERR",
      "unexpected behaviour of Dead client (or monitor) executing command"⟩

/-- Modelled from the spec: `redis_messages::not_valid_monitor`
(`src/messages/mod.rs`, not under `src/`) — the in-context authorization
error of spec §7, family `ERR cannot execute in this context`. -/
def notValidMonitor : ErrorStruct :=
  ⟨"ERR", "cannot execute commands in this context"⟩

/-- Modelled from the spec: `redis_messages::not_valid_pubsub`. -/
def notValidPubsub : ErrorStruct :=
  ⟨"ERR", "cannot execute this command in subscriber mode"⟩

/-- Modelled from the spec: `redis_messages::broken_state` (an installed
view missing where one is required). -/
def brokenState : ErrorStruct :=
  ⟨"ERR", "broken client state"⟩

/-- Modelled from the spec: `redis_messages::not_valid_executor`. -/
def notValidExecutor : ErrorStruct :=
  ⟨"ERR", "command not registered for execution"⟩

/-- `ClientFields::is_allowed_to` (`client_fields.rs:96-108`): Executors may
run anything, Subscribers only what the installed view contains, and both
Monitor and Dead clients get the in-context authorization error. -/
def ClientFields.is_allowed_to (f : ClientFields) (command : String) :
    Except ErrorStruct Unit :=
  match f.status with
  | .Executor => .ok ()
  | .Subscriber =>
    match f.map with
    | none => .error brokenState
    | some m =>
      if m.contains_key command then .ok () else .error notValidPubsub
  | _ => .error notValidMonitor

/-- `rc_case_subscriber` (`client_fields.rs:140-148`): looks the head of the
command up in the installed view (the lookup result is
`RawCommandTwo = Option<handler>`, embedded as `Option Unit`); the source
wraps the lookup in `Some(..)` so its `not_valid_pubsub` fallback is
unreachable; `command.get(0).unwrap()` panics (`none`) on an empty
command. -/
def ClientFields.rc_case_subscriber (f : ClientFields)
    (command : List String) : Option (Except ErrorStruct (Option Unit)) :=
  match f.map with
  | none => some (.error brokenState)
  | some m =>
    match command.head? with
    | none => none
    | some name => some (.ok (m.get name))

/-- `rc_case_executor` (`client_fields.rs:150-158`): identical shape to
`rc_case_subscriber` (its `not_valid_executor` fallback is just as
unreachable behind the `Some(..)` wrapping). -/
def ClientFields.rc_case_executor (f : ClientFields)
    (command : List String) : Option (Except ErrorStruct (Option Unit)) :=
  match f.map with
  | none => some (.error brokenState)
  | some m =>
    match command.head? with
    | none => none
    | some name => some (.ok (m.get name))

/-- `ClientFields::review_command` (`client_fields.rs:119-129`): dispatches
on the status; a Monitor client gets the authorization error, and a Dead
client hits the explicit `panic!()` (`none`). -/
def ClientFields.review_command (f : ClientFields) (command : List String) :
    Option (Except ErrorStruct (Option Unit)) :=
  match f.status with
  | .Executor => f.rc_case_executor command
  | .Subscriber => f.rc_case_subscriber command
  | .Monitor => some (.error notValidMonitor)
  | .Dead => none

-- sanity examples (local only)
example : RBulkString.encode "(nil)" = "$-1\r\n" := by decide
example : RBulkString.encode "value" = "$5\r\nvalue\r\n" := by decide
example : RInteger.encode 13 = ":13\r\n" := by decide
example : Int.tdiv (-5) 4 = -1 := by decide
example :
    pop_at ["key", "2"] [("key", TypeSaved.List ["a", "b", "c"])]
      remove_values_from_top =
    some (.ok ("*2\r\n$1\r\na\r\n$1\r\nb\r\n",
      [("key", TypeSaved.List ["c"])])) := by decide
example :
    pop_at ["key"] [("key", TypeSaved.List ["a", "b"])]
      remove_values_from_top =
    some (.ok ("$1\r\na\r\n", [("key", TypeSaved.List ["b"])])) := by decide
-- mirrors test_01 of `src/commands/lists/lrange.rs`
example :
    find_elements_in_range ["value"] 0 0 =
      .ok "*1\r\n$10\r\n1) \"value\"\r\n" := by decide
-- mirrors test_09: lrange key -20 -2 over [value1, value2, value3]
example :
    find_elements_in_range ["value1", "value2", "value3"] (-20) (-2) =
      .ok "*2\r\n$11\r\n1) \"value1\"\r\n$11\r\n2) \"value2\"\r\n" := by
  decide
-- mirrors test_10: lrange key -20 -10 over a three-element list
example :
    find_elements_in_range ["value1", "value2", "value3"] (-20) (-10) =
      .ok "+(empty list or set)\r\n" := by decide
-- mirrors test_02 of `src/commands/lpop.rs`
example :
    LPop.run ["key", "3"] [("key", TypeSaved.List ["this", "is", "a", "list"])] =
    some (.ok ("*3\r\n$4\r\nthis\r\n$2\r\nis\r\n$1\r\na\r\n",
      [("key", TypeSaved.List ["list"])])) := by decide
-- mirrors test02 of `src/commands/sets/sadd.rs` (repeats count once)
example :
    (Sadd.run ["key", "m2", "m1", "m1", "m3", "m2", "m1", "m1", "m3"]
      []).map Prod.fst = .ok ":3\r\n" := by decide
-- mirrors test02 of `src/commands/sets/srem.rs`
example :
    (Srem.run ["key", "m1901020", "m1", "m1", "m1", "m192192", "m1", "m1"]
      [("key", TypeSaved.Set ({"m1", "m2"} : Finset String))]).map Prod.fst =
    .ok ":1\r\n" := by decide
-- mirrors test01/test02 of `src/commands/sets/sismember.rs`
example :
    Sismember.run ["sismember", "key", "m1"]
      [("key", TypeSaved.Set ({"m1", "m2"} : Finset String))] =
    .ok ":1\r\n" := by decide
example :
    Sismember.run ["sismember", "key", "m_random"]
      [("key", TypeSaved.Set ({"m1"} : Finset String))] = .ok ":0\r\n" := by
  decide
-- mirrors test01 of `src/commands/append.rs`
example :
    Append.run "key" "Appended" [("key", TypeSaved.Str "value")] =
    .ok (":13\r\n", [("key", TypeSaved.Str "valueAppended")]) := by decide
-- mirrors test_01/test_02 of `src/commands/strings/getdel.rs`
example :
    Getdel.run "key" [("key", TypeSaved.Str "value")] =
    .ok ("$5\r\nvalue\r\n", []) := by decide
example : Getdel.run "key" [] = .ok ("$-1\r\n", []) := by decide

/-! # Theorems -/

/-! ## Helper lemmas (shared) -/

theorem Database.get_insert_self (db : Database) (k : String) (v : TypeSaved) :
    (db.insert k v).get k = some v := by
  induction db with
  | nil => simp [Database.insert, Database.get]
  | cons hd tl ih =>
    obtain ⟨k', v'⟩ := hd
    by_cases h : k' = k <;> simp [Database.insert, Database.get, h, ih]

theorem cleanLoop_minus_four_eq_none (fuel : Nat) :
    ∀ (t : Nat) (oracle : Nat → Nat) (st : List (String × Bool)) (total : Int),
      cleanLoop fuel (-4) t oracle st total = none := by
  induction fuel with
  | zero => intro t oracle st total; rfl
  | succ n ih =>
    intro t oracle st total
    have htouch : touch_n_random_keys (-4) t oracle st = (0, t, st) := by
      simp [touch_n_random_keys, touchN]
    have hdiv : Int.tdiv (-4) 4 = -1 := by decide
    simp [cleanLoop, htouch, hdiv, ih]

/-! ## C3 — CLEAN termination -/

/-- C3: the claim says `CLEAN n` terminates for every integer argument `n`,
yet the code diverges on `CLEAN -4`: each pass touches `max n 0 = 0` keys and
expires `0` of them, and the loop stops only when the expirations are at most
`n / 4 = -1`, which `0` never is.  Evaluated here at the failing input: for
every amount of loop fuel, every sampling oracle and every store contents,
`Clean::run` on the argument list `["-4"]` fails to reach a reply. -/
theorem clean_minus_four_never_replies (fuel : Nat) (oracle : Nat → Nat)
    (st : List (String × Bool)) :
    Clean.run fuel ["-4"] oracle st = none := by
  have hparse : parse_integer "-4" = .ok (-4) := by
    simp [parse_integer, parseIsize, parseNatChars, digitVal]
  simp [Clean.run, hparse, cleanLoop_minus_four_eq_none]

/-! ## C10 — the `"(nil)"` bulk-encoding alias -/

/-- C10: the bulk-string encoder maps the literal text `"(nil)"` to the null
bulk `$-1\r\n`, so GETDEL of a key holding exactly the string `"(nil)"`
replies with the very bytes of the absent-key reply — at the interface such
a value is indistinguishable from a missing key — and the absent-key path of
the list pops replies with the same null bulk. -/
theorem getdel_nil_string_indistinguishable :
    RBulkString.encode "(nil)" = "$-1\r\n" ∧
    (∀ (k : String) (db : Database),
      db.get k = some (TypeSaved.Str "(nil)") →
      Getdel.run k db = .ok ("$-1\r\n", db.remove k)) ∧
    (∀ (k : String) (db : Database), db.get k = none →
      Getdel.run k db = .ok ("$-1\r\n", db)) ∧
    (∀ (k : String) (db : Database), db.get k = none →
      pop_at [k] db remove_values_from_top = some (.ok ("$-1\r\n", db))) := by
  refine ⟨by decide, ?_, ?_, ?_⟩
  · intro k db h
    simp [Getdel.run, h, RBulkString.encode]
  · intro k db h
    simp [Getdel.run, h, RBulkString.encode]
  · intro k db h
    simp [pop_at, parse_count, h, RBulkString.encode]

/-- Witness for `getdel_nil_string_indistinguishable` at concrete stores. -/
theorem getdel_nil_string_indistinguishable_witness :
    Getdel.run "k" [("k", TypeSaved.Str "(nil)")] = .ok ("$-1\r\n", []) ∧
    Getdel.run "k" [] = .ok ("$-1\r\n", []) ∧
    pop_at ["k"] [] remove_values_from_top = some (.ok ("$-1\r\n", [])) :=
  ⟨getdel_nil_string_indistinguishable.2.1 "k"
      [("k", TypeSaved.Str "(nil)")] (by decide),
   getdel_nil_string_indistinguishable.2.2.1 "k" [] (by decide),
   getdel_nil_string_indistinguishable.2.2.2 "k" [] (by decide)⟩

/-! ## C4 — LPOP/RPOP count handling -/

/-- C4: the claim says LPOP with a count above the remaining length fails
with the out-of-range error and never panics.  `pop_at` of
`src/commands/lists/mod.rs` does exactly that, but the legacy `LPop::run` of
`src/commands/lpop.rs` pops without any bound check and panics inside
`fill_list` (`Vec::remove(0)` on an emptied vector).  Evaluated at the
failing input `LPOP key 3` against the one-element list `["a"]`: the legacy
handler panics (`none`) where `pop_at` returns the out-of-range error with
the store untouched. -/
theorem lpop_count_overflow_panics :
    LPop.run ["key", "3"] [("key", TypeSaved.List ["a"])] = none ∧
    pop_at ["key", "3"] [("key", TypeSaved.List ["a"])]
        remove_values_from_top = some (.error outOfIndex) := by
  decide

/-! ## C6 — reviewing commands as Monitor / Dead -/

/-- C6: the claim says reviewing a command for a Monitor or Dead client is
total and always yields the in-context authorization error.  A Monitor
client indeed gets the error from both `is_allowed_to` and `review_command`,
and a Dead client gets it from `is_allowed_to`; but `review_command` of a
Dead client runs the explicit `panic!()` of
`src/tcp_protocol/client_atributes/client_fields.rs:127` (embedded as
`none`), contradicting the function's own documented error contract. -/
theorem review_command_dead_panics :
    ClientFields.review_command ⟨none, Status.Monitor, ∅, "client"⟩
        ["get", "key"] = some (.error notValidMonitor) ∧
    ClientFields.is_allowed_to ⟨none, Status.Monitor, ∅, "client"⟩ "get" =
        .error notValidMonitor ∧
    ClientFields.is_allowed_to ⟨none, Status.Dead, ∅, "client"⟩ "get" =
        .error notValidMonitor ∧
    ClientFields.review_command ⟨none, Status.Dead, ∅, "client"⟩
        ["get", "key"] = none := by
  decide

/-! ## C5 — handler-map view vs status -/

/-- C5: the claim says the allowed-handler view is recomputed on every status
transition, including the Subscriber → Executor transition of an
`UNSUBSCRIBE` with no arguments.  Evaluated on a freshly subscribed client:
`add_subscriptions ["news"]` installs the Subscriber view, but
`remove_subscriptions []` (the no-argument UNSUBSCRIBE) swaps the status to
Executor directly on the `Status` value without `replace_status`, so the
stale Subscriber view stays installed and disagrees with
`Status::update_map` of the new status. -/
theorem unsubscribe_no_args_keeps_stale_map :
    (ClientFields.new "client").add_subscriptions ["news"] =
      .ok (1, ⟨some RunnablesMap.subscriber, Status.Subscriber,
        {"news"}, "client"⟩) ∧
    ClientFields.remove_subscriptions
        ⟨some RunnablesMap.subscriber, Status.Subscriber, {"news"}, "client"⟩
        [] =
      .ok (0, ⟨some RunnablesMap.subscriber, Status.Executor, ∅, "client"⟩) ∧
    some RunnablesMap.subscriber ≠ Status.update_map Status.Executor := by
  decide

/-! ## C1 — wrong-variant errors of the list and set commands -/

/-- C1 counterexample: the claim says every list or set command on a
wrong-variant key fails with the `WRONGTYPE` typed error, but `push_at`
(LPUSH/RPUSH) on a string-valued key fails with
`ERR key provided is not from strings`, which is not the `WRONGTYPE`
error. -/
theorem push_at_wrong_variant_not_wrongtype :
    push_at ["key", "x"] [("key", TypeSaved.Str "v")] fill_list_from_top =
      .error notFromStrings ∧
    notFromStrings ≠ wrongtype := by
  decide

/-- C1 amended: on an existing key holding a different variant, every list
and set command fails without touching the store (the handler returns an
error and no updated store), but the error splits by family: the list
push/pop helpers (`push_at`, `pushx_at`, `pop_at`, i.e. LPUSH, RPUSH,
LPUSHX, RPUSHX, LPOP, RPOP) fail with `ERR key provided is not from
strings`, while LRANGE, SADD, SREM and SISMEMBER fail with the typed
`WRONGTYPE Operation against a key holding the wrong kind of value`. -/
theorem wrong_variant_commands_fail_without_mutation
    (db : Database) (k : String) (v : TypeSaved) (args : List String)
    (m : String)
    (fillP : List String → List String → List String)
    (fillQ : List String → Nat → Option (String × List String))
    (start stop : Int)
    (hget : db.get k = some v) :
    ((∀ l, v ≠ TypeSaved.List l) →
      push_at (k :: args) db fillP = .error notFromStrings ∧
      pushx_at (k :: args) db fillP = .error notFromStrings ∧
      pop_at [k] db fillQ = some (.error notFromStrings) ∧
      Lrange.run k start stop db = .error wrongtype) ∧
    ((∀ s, v ≠ TypeSaved.Set s) →
      Sadd.run (k :: m :: args) db = .error wrongtype ∧
      Srem.run (k :: m :: args) db = .error wrongtype ∧
      Sismember.run ["sismember", k, m] db = .error wrongtype) := by
  constructor
  · intro hv
    cases v with
    | Str s =>
      refine ⟨?_, ?_, ?_, ?_⟩ <;>
        simp [push_at, pushx_at, pop_at, parse_count, Lrange.run, hget]
    | List l => exact absurd rfl (hv l)
    | Set s =>
      refine ⟨?_, ?_, ?_, ?_⟩ <;>
        simp [push_at, pushx_at, pop_at, parse_count, Lrange.run, hget]
  · intro hv
    cases v with
    | Str s =>
      refine ⟨?_, ?_, ?_⟩ <;>
        simp [Sadd.run, Srem.run, Sismember.run, hget]
    | List l =>
      refine ⟨?_, ?_, ?_⟩ <;>
        simp [Sadd.run, Srem.run, Sismember.run, hget]
    | Set s => exact absurd rfl (hv s)

/-- Witness for `wrong_variant_commands_fail_without_mutation` on a store
holding a string at the targeted key. -/
theorem wrong_variant_commands_fail_without_mutation_witness :
    (push_at ["k", "x"] [("k", TypeSaved.Str "v")] fill_list_from_top =
        .error notFromStrings ∧
      pushx_at ["k", "x"] [("k", TypeSaved.Str "v")] fill_list_from_top =
        .error notFromStrings ∧
      pop_at ["k"] [("k", TypeSaved.Str "v")] remove_values_from_top =
        some (.error notFromStrings) ∧
      Lrange.run "k" 0 0 [("k", TypeSaved.Str "v")] = .error wrongtype) ∧
    (Sadd.run ["k", "m", "x"] [("k", TypeSaved.Str "v")] = .error wrongtype ∧
      Srem.run ["k", "m", "x"] [("k", TypeSaved.Str "v")] = .error wrongtype ∧
      Sismember.run ["sismember", "k", "m"] [("k", TypeSaved.Str "v")] =
        .error wrongtype) :=
  ⟨(wrong_variant_commands_fail_without_mutation
      [("k", TypeSaved.Str "v")] "k" (TypeSaved.Str "v") ["x"] "m"
      fill_list_from_top remove_values_from_top 0 0 (by decide)).1
    (fun _ h => nomatch h),
   (wrong_variant_commands_fail_without_mutation
      [("k", TypeSaved.Str "v")] "k" (TypeSaved.Str "v") ["x"] "m"
      fill_list_from_top remove_values_from_top 0 0 (by decide)).2
    (fun _ h => nomatch h)⟩

/-! ## C2 — LRANGE empty-condition reply shape and clamping -/

/-- C2 counterexample: the claim says an out-of-range LRANGE start yields an
empty-ARRAY reply and not a free-text simple string, but
`find_elements_in_range` over the two-element list with `start = 2 > 0 =
stop` replies with the simple string `+(empty list or set)\r\n`, which is
not the empty-array reply `*0\r\n`. -/
theorem lrange_empty_is_simple_string :
    find_elements_in_range ["foo", "bar"] 2 0 =
      .ok (RSimpleString.encode "(empty list or set)") ∧
    RSimpleString.encode "(empty list or set)" ≠ RArray.encode [] := by
  decide

/-- C2 amended: after resolving negative LRANGE indices against the length,
`start > stop` or `start ≥ len` yields the free-text simple-string reply
`+(empty list or set)\r\n` (not an empty-array reply), and a surviving
`stop ≥ len` is clamped to `len − 1`. -/
theorem lrange_empty_condition_and_clamp (l : List String) (start stop : Int) :
    ((if start < 0 then start + l.length else start) >
        (if stop < 0 then stop + l.length else stop) ∨
      (if start < 0 then start + l.length else start) ≥ (l.length : Int) →
      find_elements_in_range l start stop =
        .ok (RSimpleString.encode "(empty list or set)")) ∧
    ((if start < 0 then start + l.length else start) < (l.length : Int) →
      (if start < 0 then start + l.length else start) ≤
        (if stop < 0 then stop + l.length else stop) →
      (l.length : Int) ≤ (if stop < 0 then stop + l.length else stop) →
      find_elements_in_range l start stop =
        .ok (get_list_elements_in_range
          (if (if start < 0 then start + l.length else start) < 0 then 0
            else (if start < 0 then start + l.length else start))
          ((l.length : Int) - 1) l)) := by
  constructor
  · intro h
    have hcond : ((if start < 0 then start + l.length else start) ≥
          (l.length : Int) ∨
        (if start < 0 then start + l.length else start) >
          (if stop < 0 then stop + l.length else stop) ∨
        (if stop < 0 then stop + l.length else stop) <
          -(l.length : Int)) := by
      rcases h with h | h
      · exact Or.inr (Or.inl h)
      · exact Or.inl h
    simp only [find_elements_in_range, if_pos hcond]
  · intro h1 h2 h3
    have hcond : ¬((if start < 0 then start + l.length else start) ≥
          (l.length : Int) ∨
        (if start < 0 then start + l.length else start) >
          (if stop < 0 then stop + l.length else stop) ∨
        (if stop < 0 then stop + l.length else stop) <
          -(l.length : Int)) := by
      push_neg
      refine ⟨h1, h2, ?_⟩
      have : (0 : Int) ≤ (l.length : Int) := Int.natCast_nonneg _
      omega
    simp only [find_elements_in_range, if_neg hcond, if_pos h3]

/-- Witness for `lrange_empty_condition_and_clamp`: the empty condition on
`LRANGE k 5 0` and the clamp on `LRANGE k 0 9`, both over a two-element
list. -/
theorem lrange_empty_condition_and_clamp_witness :
    find_elements_in_range ["a", "b"] 5 0 =
      .ok (RSimpleString.encode "(empty list or set)") ∧
    find_elements_in_range ["a", "b"] 0 9 =
      .ok (get_list_elements_in_range
        (if (if (0 : Int) < 0 then 0 + (["a", "b"] : List String).length
             else 0) < 0 then 0
         else (if (0 : Int) < 0 then 0 + (["a", "b"] : List String).length
             else 0))
        (((["a", "b"] : List String).length : Int) - 1) ["a", "b"]) :=
  ⟨(lrange_empty_condition_and_clamp ["a", "b"] 5 0).1 (by decide),
   (lrange_empty_condition_and_clamp ["a", "b"] 0 9).2 (by decide) (by decide)
     (by decide)⟩

/-! ## C8 — LRANGE 0 -1 decorates elements -/

theorem get_list_elements_full_range (l : List String) :
    get_list_elements_in_range 0 ((l.length : Int) - 1) l =
      RArray.encode (l.enum.map fun p =>
        toString (p.1 + 1) ++ ") \"" ++ p.2 ++ "\"") := by
  unfold get_list_elements_in_range
  have h1 : ((l.length : Int) - 1 + 1 - 0).toNat = l.length := by omega
  have h2 : (0 : Int).toNat = 0 := rfl
  rw [h1, h2, List.drop_zero, List.take_length]

/-- C8 counterexample: the claim says `LRANGE k 0 -1` returns the element
strings unmodified, but over the one-element list `["a"]` the reply array
holds the decorated text `1) "a"` instead of `a`. -/
theorem lrange_full_range_elements_decorated :
    find_elements_in_range ["a"] 0 (-1) =
      .ok (RArray.encode ["1) \"a\""]) ∧
    RArray.encode ["1) \"a\""] ≠ RArray.encode ["a"] := by
  decide

/-- C8 amended: `LRANGE k 0 -1` over a non-empty list with elements
`[e₁…eₙ]` returns an array reply of exactly `n` entries in list order,
where the `j`-th entry is not the raw element but the decorated text
`j) "eⱼ"` produced by `get_list_elements_in_range`. -/
theorem lrange_full_range_returns_all_decorated (l : List String)
    (h : l ≠ []) :
    find_elements_in_range l 0 (-1) =
      .ok (RArray.encode (l.enum.map fun p =>
        toString (p.1 + 1) ++ ") \"" ++ p.2 ++ "\"")) := by
  have hlen : 0 < l.length := List.length_pos.mpr h
  have hlen' : (1 : Int) ≤ (l.length : Int) := by exact_mod_cast hlen
  have hstart : ¬((0 : Int) < 0) := by norm_num
  have hstop : ((-1 : Int) < 0) := by norm_num
  have hcond : ¬((if (0 : Int) < 0 then (0 : Int) + l.length else 0) ≥
        (l.length : Int) ∨
      (if (0 : Int) < 0 then (0 : Int) + l.length else 0) >
        (if (-1 : Int) < 0 then (-1 : Int) + l.length else -1) ∨
      (if (-1 : Int) < 0 then (-1 : Int) + l.length else -1) <
        -(l.length : Int)) := by
    rw [if_neg hstart, if_pos hstop]
    omega
  simp only [find_elements_in_range, if_neg hcond, if_neg hstart,
    if_pos hstop]
  simp only [show ∀ x : Int, -1 + x = x - 1 from fun x => by ring, ite_self]
  rw [get_list_elements_full_range]
  rw [if_neg (by omega)]

/-- Witness for `lrange_full_range_returns_all_decorated` on `["a"]`. -/
theorem lrange_full_range_returns_all_decorated_witness :
    find_elements_in_range ["a"] 0 (-1) =
      .ok (RArray.encode ((["a"] : List String).enum.map fun p =>
        toString (p.1 + 1) ++ ") \"" ++ p.2 ++ "\"")) :=
  lrange_full_range_returns_all_decorated ["a"] (by decide)

/-! ## C7 — APPEND accumulates -/

theorem Append.runSeq_of_str (vs : List String) :
    ∀ (k : String) (db : Database) (s₀ : String),
      db.get k = some (TypeSaved.Str s₀) →
      ∃ db', Append.runSeq k db vs = .ok (appendReplies s₀ vs, db') ∧
        db'.get k = some (TypeSaved.Str (s₀ ++ joinAll vs)) := by
  induction vs with
  | nil =>
    intro k db s₀ h
    exact ⟨db, by simp [Append.runSeq, appendReplies],
      by simpa [joinAll, String.append_empty] using h⟩
  | cons v vs ih =>
    intro k db s₀ h
    have hrun : Append.run k v db =
        .ok (RInteger.encode ((s₀ ++ v).length : Int),
          db.insert k (TypeSaved.Str (s₀ ++ v))) := by
      simp [Append.run, h]
    obtain ⟨db', hseq, hget⟩ :=
      ih k (db.insert k (TypeSaved.Str (s₀ ++ v))) (s₀ ++ v)
        (Database.get_insert_self db k _)
    refine ⟨db', ?_, ?_⟩
    · simp [Append.runSeq, hrun, hseq, appendReplies]
    · simpa [joinAll, String.append_assoc] using hget

/-- C7: starting from a store where the key is absent or holds a string
`s₀` (empty if absent), the chain `APPEND k v1, ..., APPEND k vn` succeeds,
each reply is the integer reply carrying the cumulative length of the stored
string so far, and (when at least one value was appended) the key ends up
holding the concatenation `s₀ ++ v1v2...vn`. -/
theorem append_chain_concatenates (k : String) (vs : List String)
    (db : Database) (s₀ : String)
    (h : db.get k = some (TypeSaved.Str s₀) ∨ (db.get k = none ∧ s₀ = "")) :
    ∃ db', Append.runSeq k db vs = .ok (appendReplies s₀ vs, db') ∧
      (vs ≠ [] → db'.get k = some (TypeSaved.Str (s₀ ++ joinAll vs))) := by
  rcases h with h | ⟨h, rfl⟩
  · obtain ⟨db', h1, h2⟩ := Append.runSeq_of_str vs k db s₀ h
    exact ⟨db', h1, fun _ => h2⟩
  · cases vs with
    | nil =>
      exact ⟨db, by simp [Append.runSeq, appendReplies],
        fun hc => absurd rfl hc⟩
    | cons v vs =>
      have hrun : Append.run k v db =
          .ok (RInteger.encode (v.length : Int),
            db.insert k (TypeSaved.Str v)) := by
        simp [Append.run, h]
      obtain ⟨db', hseq, hget⟩ :=
        Append.runSeq_of_str vs k (db.insert k (TypeSaved.Str v)) v
          (Database.get_insert_self db k _)
      refine ⟨db', ?_, fun _ => ?_⟩
      · simp [Append.runSeq, hrun, hseq, appendReplies, String.empty_append]
      · simpa [joinAll, String.empty_append, String.append_assoc] using hget

/-- Witness for `append_chain_concatenates`: two APPENDs on an initially
absent key. -/
theorem append_chain_concatenates_witness :
    ∃ db', Append.runSeq "foo" [] ["bar", "baz"] =
        .ok (appendReplies "" ["bar", "baz"], db') ∧
      ((["bar", "baz"] : List String) ≠ [] →
        db'.get "foo" =
          some (TypeSaved.Str ("" ++ joinAll ["bar", "baz"]))) :=
  append_chain_concatenates "foo" ["bar", "baz"] [] "" (Or.inr ⟨rfl, rfl⟩)

/-! ## C9 — SADD / SREM / SISMEMBER counts -/

theorem insert_in_set_spec (members : List String) :
    ∀ item : Finset String,
      insert_in_set members item =
        ((members.toFinset \ item).card, item ∪ members.toFinset) := by
  induction members with
  | nil => intro item; simp [insert_in_set]
  | cons m rest ih =>
    intro item
    by_cases hm : m ∈ item
    · rw [insert_in_set, if_pos hm, ih]
      simp only [List.toFinset_cons, Prod.mk.injEq]
      constructor
      · rw [Finset.insert_sdiff_of_mem _ hm]
      · rw [Finset.union_insert,
          Finset.insert_eq_self.mpr (Finset.mem_union_left _ hm)]
    · rw [insert_in_set, if_neg hm, ih]
      simp only [List.toFinset_cons, Prod.mk.injEq]
      constructor
      · rw [Finset.sdiff_insert, Finset.insert_sdiff_of_not_mem _ hm]
        by_cases hmB : m ∈ rest.toFinset \ item
        · rw [Finset.insert_eq_self.mpr hmB, Finset.card_erase_add_one hmB]
        · rw [Finset.erase_eq_of_not_mem hmB,
            Finset.card_insert_of_not_mem hmB]
      · rw [Finset.insert_union, Finset.union_insert]

theorem remove_from_set_spec (members : List String) :
    ∀ item : Finset String,
      remove_from_set members item =
        ((members.toFinset ∩ item).card, item \ members.toFinset) := by
  induction members with
  | nil => intro item; simp [remove_from_set]
  | cons m rest ih =>
    intro item
    by_cases hm : m ∈ item
    · rw [remove_from_set, if_pos hm, ih]
      simp only [List.toFinset_cons, Prod.mk.injEq]
      constructor
      · rw [Finset.inter_erase, Finset.insert_inter_of_mem hm]
        by_cases hmB : m ∈ rest.toFinset ∩ item
        · rw [Finset.insert_eq_self.mpr hmB, Finset.card_erase_add_one hmB]
        · rw [Finset.erase_eq_of_not_mem hmB,
            Finset.card_insert_of_not_mem hmB]
      · rw [Finset.sdiff_insert, Finset.erase_sdiff_comm]
    · rw [remove_from_set, if_neg hm, ih]
      simp only [List.toFinset_cons, Prod.mk.injEq]
      constructor
      · rw [Finset.insert_inter_of_not_mem hm]
      · rw [Finset.sdiff_insert, Finset.erase_eq_of_not_mem
          (fun hc => hm (Finset.mem_sdiff.mp hc).1)]

/-- C9: with at least one member argument, `SADD` on a set key (or an absent
key) replies with the count of truly new members — members already present
or repeated within the call counted at most once — and stores the union;
`SREM` replies with the count of members actually removed (and `:0\r\n` on
an absent key); `SISMEMBER` replies `:1\r\n` exactly when the member is in
the set and `:0\r\n` otherwise, including on an absent key. -/
theorem set_command_counts (db : Database) (k m : String)
    (members : List String) (item : Finset String) (hm : members ≠ []) :
    (db.get k = some (TypeSaved.Set item) →
      Sadd.run (k :: members) db =
        .ok (RInteger.encode ((members.toFinset \ item).card : Int),
          db.insert k (TypeSaved.Set (item ∪ members.toFinset)))) ∧
    (db.get k = none →
      Sadd.run (k :: members) db =
        .ok (RInteger.encode (members.toFinset.card : Int),
          db.insert k (TypeSaved.Set members.toFinset))) ∧
    (db.get k = some (TypeSaved.Set item) →
      Srem.run (k :: members) db =
        .ok (RInteger.encode ((members.toFinset ∩ item).card : Int),
          db.insert k (TypeSaved.Set (item \ members.toFinset)))) ∧
    (db.get k = none →
      Srem.run (k :: members) db = .ok (RInteger.encode 0, db)) ∧
    (db.get k = some (TypeSaved.Set item) →
      Sismember.run ["sismember", k, m] db =
        .ok (RInteger.encode (if m ∈ item then 1 else 0))) ∧
    (db.get k = none →
      Sismember.run ["sismember", k, m] db = .ok (RInteger.encode 0)) := by
  cases members with
  | nil => exact absurd rfl hm
  | cons m₁ rest =>
    refine ⟨fun h => ?_, fun h => ?_, fun h => ?_, fun h => ?_,
      fun h => ?_, fun h => ?_⟩
    · simp [Sadd.run, h, insert_in_set_spec]
    · simp [Sadd.run, h, insert_in_set_spec]
    · simp [Srem.run, h, remove_from_set_spec]
    · simp [Srem.run, h]
    · simp [Sismember.run, h]
    · simp [Sismember.run, h]

/-- Witness for `set_command_counts`: `{"a"}` stored at `k`, members
`["a", "b"]`, probe member `"a"`, plus the absent-key cases on the empty
store. -/
theorem set_command_counts_witness :
    Sadd.run ["k", "a", "b"] [("k", TypeSaved.Set {"a"})] =
      .ok (RInteger.encode
          (((["a", "b"] : List String).toFinset \ {"a"}).card : Int),
        Database.insert [("k", TypeSaved.Set {"a"})] "k"
          (TypeSaved.Set ({"a"} ∪ (["a", "b"] : List String).toFinset))) ∧
    Srem.run ["k", "a", "b"] [("k", TypeSaved.Set {"a"})] =
      .ok (RInteger.encode
          (((["a", "b"] : List String).toFinset ∩ {"a"}).card : Int),
        Database.insert [("k", TypeSaved.Set {"a"})] "k"
          (TypeSaved.Set ({"a"} \ (["a", "b"] : List String).toFinset))) ∧
    Sismember.run ["sismember", "k", "a"] [("k", TypeSaved.Set {"a"})] =
      .ok (RInteger.encode (if "a" ∈ ({"a"} : Finset String) then 1
        else 0)) ∧
    Sadd.run ["k", "a", "b"] [] =
      .ok (RInteger.encode
          (((["a", "b"] : List String).toFinset.card : Int)),
        Database.insert [] "k"
          (TypeSaved.Set (["a", "b"] : List String).toFinset)) ∧
    Srem.run ["k", "a", "b"] [] = .ok (RInteger.encode 0, []) ∧
    Sismember.run ["sismember", "k", "a"] [] = .ok (RInteger.encode 0) :=
  ⟨(set_command_counts [("k", TypeSaved.Set {"a"})] "k" "a" ["a", "b"]
      {"a"} (by decide)).1 (by decide),
   (set_command_counts [("k", TypeSaved.Set {"a"})] "k" "a" ["a", "b"]
      {"a"} (by decide)).2.2.1 (by decide),
   (set_command_counts [("k", TypeSaved.Set {"a"})] "k" "a" ["a", "b"]
      {"a"} (by decide)).2.2.2.2.1 (by decide),
   (set_command_counts [] "k" "a" ["a", "b"] {"a"} (by decide)).2.1 rfl,
   (set_command_counts [] "k" "a" ["a", "b"] {"a"} (by decide)).2.2.2.1 rfl,
   (set_command_counts [] "k" "a" ["a", "b"] {"a"} (by decide)).2.2.2.2.2
     rfl⟩
